import Mathlib

/-!
Verification of the prompt-construction pipeline of the `llm-playground`
repository (primary source: `src/playground/app.py`, with the variants in
`src/playgrounds/extended/core/` and `src/github-issues/main.py`).

Modelling conventions:
* Python strings are modelled as `List Char` (Python `len` counts code
  points, as does `List.length` here).
* Python machine integers are unbounded, so `Nat`/`Int` model them exactly.
  Where Python computes `int(x * 0.25)` or `int(x * 0.45)` on a float, the
  model uses exact integer arithmetic (`x / 4`, `x * 45 / 100`): `0.25` is
  exact in binary floating point, and for `0.45` the double rounding error
  is far below the half-ulp threshold at every value reached in the claims.
* Network calls via the LLM providers are modelled by an abstract
  `ProviderModel.complete : Str → Str → Except Unit Str`; a raised Python
  exception is `Except.error ()`.
* The Python `json.loads` / fenced-block-regex helpers are external library
  behaviour; they are modelled by an abstract `ParseEnv` whose fields only
  carry the structural facts used by the code (a JSON parse of a string
  that yields a string strictly shrinks it, a fenced block is a substring).
-/

namespace LLMPlayground

/-- Python strings, as lists of code points. -/
abbrev Str := List Char

/-- Convert a Lean string literal to the `Str` model. -/
def chars (s : String) : Str := s.data

/-! ## TokenEstimator (`src/playground/app.py`, `est_tokens` / `trim_to_tokens`) -/

/-- `def est_tokens(text): return max(1, math.ceil(len(text) / 4))` -/
def est_tokens (text : Str) : Nat := max 1 ((text.length + 3) / 4)

/-- `def trim_to_tokens(text, max_tokens):`
    `if est_tokens(text) <= max_tokens: return text`
    `return text[: max(0, max_tokens * 4)]`
    The budget is an `Int` because the callers in
    `build_optimized_prompt_dual_context` can pass a negative value
    (`rem - half` in the final safety pass). -/
def trim_to_tokens (text : Str) (max_tokens : Int) : Str :=
  if (est_tokens text : Int) ≤ max_tokens then text
  else text.take ((max 0 (max_tokens * 4)).toNat)

/-! ## Python `str.strip()` -/

/-- Python `str.strip()`: drop leading and trailing whitespace. -/
def pstrip (s : Str) : Str :=
  ((s.dropWhile Char.isWhitespace).reverse.dropWhile Char.isWhitespace).reverse

/-! ## CompletionProvider capability

`summarize_to_tokens_dynamic` consults `providers.get(opt.provider)` and the
api-key requirement (the `usable` flag below), while the instruction-rewrite
step of `build_optimized_prompt_dual_context` only checks that the provider
is configured (the `configured` flag).  A completion call either returns
text or raises (`Except.error`). -/
structure ProviderModel where
  usable : Bool
  configured : Bool
  complete : Str → Str → Except Unit Str

/-- System prompt of the summarizer
    (`sys = "You compress content faithfully. ..."`). -/
def summSystem : Str :=
  chars "You compress content faithfully. Keep concrete facts, IDs, numbers, names. Prefer bullets."

/-- The summarization user prompt template, with `target_tokens` and the
    content interpolated exactly as in the Python f-string. -/
def summPrompt (target_tokens : Int) (text : Str) : Str :=
  chars "Summarize the following to <= " ++ chars (toString target_tokens) ++
  chars " tokens (approx).\nKeep key facts, titles, dates, URLs, and short comment insights.\n\nCONTENT:\n" ++
  text ++ chars "\n"

/-- `summarize_to_tokens_dynamic` (`src/playground/app.py` lines 341-364):
    empty text is returned unchanged; an unusable provider (missing entry or
    missing api key) falls back to `trim_to_tokens`; a raising completion
    call falls back to `trim_to_tokens`; a successful completion is stripped
    and trimmed down iff its token estimate exceeds the target. -/
def summarize_to_tokens_dynamic (P : ProviderModel) (text : Str) (target_tokens : Int) : Str :=
  if text = [] then text
  else if ¬ P.usable then trim_to_tokens text target_tokens
  else
    match P.complete summSystem (summPrompt target_tokens text) with
    | .error _ => trim_to_tokens text target_tokens
    | .ok res =>
        let out := pstrip res
        if (est_tokens out : Int) > target_tokens then trim_to_tokens out target_tokens
        else out

/-! ## Basic estimator lemmas -/

theorem est_tokens_pos (t : Str) : 1 ≤ est_tokens t := le_max_left _ _

theorem est_tokens_append (a b : Str) :
    est_tokens (a ++ b) ≤ est_tokens a + est_tokens b := by
  unfold est_tokens
  simp only [List.length_append]
  omega

theorem est_tokens_take (t : Str) (k : Nat) :
    est_tokens (t.take k) ≤ max 1 ((k + 3) / 4) := by
  unfold est_tokens
  have h := List.length_take k t
  omega

/-- Core trimming bound: the trimmed text estimates to at most
    `max max_tokens 1` tokens, for any integer budget. -/
theorem est_trim_le (t : Str) (m : Int) :
    (est_tokens (trim_to_tokens t m) : Int) ≤ max m 1 := by
  unfold trim_to_tokens
  split
  · next h => exact le_trans h (le_max_left _ _)
  · next h =>
    push_neg at h
    rcases le_or_lt m 0 with hm | hm
    · have hk : (max 0 (m * 4)).toNat = 0 := by omega
      rw [hk]
      have : est_tokens (t.take 0) = 1 := by simp [est_tokens]
      rw [this]
      omega
    · have hk : (max 0 (m * 4)).toNat = 4 * m.toNat := by omega
      rw [hk]
      have hest := est_tokens_take t (4 * m.toNat)
      have hdiv : (4 * m.toNat + 3) / 4 = m.toNat := by omega
      rw [hdiv] at hest
      have hmax : max 1 m.toNat = m.toNat := by omega
      rw [hmax] at hest
      have hcast : (est_tokens (t.take (4 * m.toNat)) : Int) ≤ (m.toNat : Int) := by
        exact_mod_cast hest
      omega

/-- The summarizer output estimates to at most `max target 1` tokens. -/
theorem est_summarize_le (P : ProviderModel) (t : Str) (m : Int) :
    (est_tokens (summarize_to_tokens_dynamic P t m) : Int) ≤ max m 1 := by
  unfold summarize_to_tokens_dynamic
  split
  · next h =>
    subst h
    simp [est_tokens]
  · split
    · exact est_trim_le t m
    · split
      · exact est_trim_le t m
      · next res heq =>
        simp only
        split
        · exact est_trim_le _ m
        · next h2 =>
          push_neg at h2
          exact le_trans h2 (le_max_left _ _)

/-! ## BudgetAllocator (`build_optimized_prompt_dual_context`, app.py 631-729) -/

/-- The `budgets` object of the debug payload. -/
structure Budgets where
  reserve_reply : Nat
  reserve_system : Nat
  prompt_budget : Nat
  context_budget_total : Nat
  issues_budget : Nat
  papers_budget : Nat
  instruction_budget : Nat
  user_budget : Nat
deriving DecidableEq

/-- Budget derivation (app.py lines 641-649).  `int(cw * 0.25)` is exactly
    `cw / 4` (0.25 is a binary-exact float) and `int(x * 0.45)` is modelled
    as `x * 45 / 100`.  `provider_cw_tokens - reserve_reply - reserve_system`
    can be negative in Python; the truncated `Nat` subtraction used here
    gives the same `prompt_budget` because both are absorbed by
    `max 1000 _`. -/
def deriveBudgets (provider_cw_tokens : Nat) : Budgets :=
  let reserve_reply := provider_cw_tokens / 4
  let reserve_system := 800
  let prompt_budget := max 1000 (provider_cw_tokens - reserve_reply - reserve_system)
  let context_budget_total := prompt_budget * 45 / 100
  let issues_budget := max 150 (context_budget_total / 2)
  let papers_budget := max 150 (context_budget_total - issues_budget)
  let instruction_budget := max 400 (prompt_budget - context_budget_total)
  let user_budget := max 200 (instruction_budget * 45 / 100)
  ⟨reserve_reply, reserve_system, prompt_budget, context_budget_total,
   issues_budget, papers_budget, instruction_budget, user_budget⟩

/-- `user_final = user_prompt if est_tokens(user_prompt) <= user_budget`
    `             else trim_to_tokens(user_prompt, user_budget)` -/
def mkUserFinal (user_budget : Nat) (user_prompt : Str) : Str :=
  if est_tokens user_prompt ≤ user_budget then user_prompt
  else trim_to_tokens user_prompt user_budget

/-- An ASCII single-quote character (code point 39). -/
def squote : Char := Char.ofNat 39

/-- System prompt of the instruction-rewrite step. -/
def instrSystem : Str := chars "You are a prompt optimizer."

/-- The instruction-rewrite user prompt, interpolated as in the f-string. -/
def instrPrompt (instruction_budget : Nat) (user_final issues_sum papers_sum : Str) : Str :=
  chars "Rewrite the user request into a crisp, actionable instruction that leverages the two contexts below.\n- Keep the instruction <= " ++
  chars (toString instruction_budget) ++
  chars " tokens (approx).\n- Be specific and structured.\n- Include concrete references (issue #, URLs, table/column names) when present.\n- Do NOT include any " ++
  [squote] ++ chars "Context:" ++ [squote] ++
  chars " sections—return only the instruction text.\n\nUser request:\n" ++
  user_final ++
  chars "\n\nContext A (GitHub Issues, summarized):\n" ++ issues_sum ++
  chars "\n\nContext B (Research Papers, summarized):\n" ++ papers_sum ++ chars "\n"

/-- Header of the deterministic fallback instruction used in the `except`
    branch of the optimizer step. -/
def fbHeader : Str :=
  chars "Answer the user request using both GitHub issues/comments and research paper abstracts. Be concise.\n\nUser request:\n"

/-- The instruction-rewrite step: `try` to complete; an unconfigured
    provider or a raising call falls into the `except` branch producing the
    fixed fallback template; a successful but empty completion is replaced
    by `user_final` (`.strip() or user_final`); an over-budget instruction
    is summarized down to `instruction_budget`. -/
def mkInstruction (P : ProviderModel) (instruction_budget : Nat)
    (user_final issues_sum papers_sum : Str) : Str :=
  if ¬ P.configured then fbHeader ++ user_final
  else
    match P.complete instrSystem (instrPrompt instruction_budget user_final issues_sum papers_sum) with
    | .error _ => fbHeader ++ user_final
    | .ok res =>
        let s := pstrip res
        let oi := if s = [] then user_final else s
        if est_tokens oi > instruction_budget then
          summarize_to_tokens_dynamic P oi (instruction_budget : Int)
        else oi

/-- The two re-summarization targets computed by the proportional overflow
    rebalancing pass (app.py 683-693).  `int(overflow * (cur_i / total_c))`
    (a float product) is modelled as exact `overflow * cur_i / total_c`;
    the possibly-negative Python `cur - reduce` is absorbed by `max 100 _`
    exactly as the truncated `Nat` subtraction is. -/
def rebalanceTargets (prompt_budget : Nat) (instr issues_sum papers_sum : Str) : Nat × Nat :=
  let total_now := est_tokens instr + est_tokens issues_sum + est_tokens papers_sum
  let overflow := total_now - prompt_budget
  let cur_i := if est_tokens issues_sum = 0 then 1 else est_tokens issues_sum
  let cur_p := if est_tokens papers_sum = 0 then 1 else est_tokens papers_sum
  let total_c := cur_i + cur_p
  let reduce_i := overflow * cur_i / total_c
  let reduce_p := overflow - reduce_i
  (max 100 (cur_i - reduce_i), max 100 (cur_p - reduce_p))

/-- The conditional proportional rebalancing pass. -/
def applyRebalance (P : ProviderModel) (prompt_budget : Nat)
    (instr issues_sum papers_sum : Str) : Str × Str :=
  if est_tokens instr + est_tokens issues_sum + est_tokens papers_sum > prompt_budget then
    let t := rebalanceTargets prompt_budget instr issues_sum papers_sum
    (summarize_to_tokens_dynamic P issues_sum (t.1 : Int),
     summarize_to_tokens_dynamic P papers_sum (t.2 : Int))
  else (issues_sum, papers_sum)

/-- Section header preceding the issues context in the assembled prompt. -/
def hdrIssues : Str := chars "\n\nContext — GitHub Issues:\n"

/-- Section header preceding the papers context (note the stray space the
    f-string leaves after the issues block). -/
def hdrPapers : Str := chars " \n\nContext — Research Papers:\n"

/-- The `'(none)'` placeholder for an empty context section. -/
def noneLit : Str := chars "(none)"

/-- Final prompt assembly (the f-string at app.py 696-702 and 710-716). -/
def assemble (instr issues_sum papers_sum : Str) : Str :=
  instr ++ hdrIssues ++ (if issues_sum = [] then noneLit else issues_sum) ++
  hdrPapers ++ (if papers_sum = [] then noneLit else papers_sum)

/-- The two re-summarization targets of the final safety pass
    (`rem = prompt_budget - est_tokens(optimized_instruction)`,
    `half = max(80, rem // 2)`, papers get `rem - half`).  `rem` and the
    targets are integers that Python allows to go negative, hence `Int`;
    Lean's Euclidean `Int` division coincides with Python's floor division
    `//` for the positive divisor 2. -/
def finalTargets (prompt_budget : Nat) (instr : Str) : Int × Int :=
  let rem : Int := (prompt_budget : Int) - (est_tokens instr : Int)
  let half : Int := max 80 (rem / 2)
  (half, rem - half)

/-- Result of `build_optimized_prompt_dual_context`: the assembled prompt
    together with the parts of the debug payload the spec talks about. -/
structure BuildResult where
  optimized_prompt : Str
  budgets : Budgets
  final_tokens_est : Nat

/-- `build_optimized_prompt_dual_context` (app.py 631-729), with the
    provider/optimizer configuration abstracted into `P`. -/
def build_optimized_prompt_dual_context (P : ProviderModel)
    (user_prompt issues_text papers_text : Str) (provider_cw_tokens : Nat) : BuildResult :=
  let B := deriveBudgets provider_cw_tokens
  let user_final := mkUserFinal B.user_budget user_prompt
  let issues_sum :=
    if issues_text = [] then []
    else summarize_to_tokens_dynamic P issues_text (B.issues_budget : Int)
  let papers_sum :=
    if papers_text = [] then []
    else summarize_to_tokens_dynamic P papers_text (B.papers_budget : Int)
  let oi := mkInstruction P B.instruction_budget user_final issues_sum papers_sum
  let ip := applyRebalance P B.prompt_budget oi issues_sum papers_sum
  let final_prompt := assemble oi ip.1 ip.2
  if est_tokens final_prompt > B.prompt_budget then
    let t := finalTargets B.prompt_budget oi
    let i2 := summarize_to_tokens_dynamic P ip.1 t.1
    let p2 := summarize_to_tokens_dynamic P ip.2 t.2
    let fp2 := assemble oi i2 p2
    ⟨fp2, B, est_tokens fp2⟩
  else ⟨final_prompt, B, est_tokens final_prompt⟩

/-! ## Arithmetic facts about the derived budgets -/

theorem deriveBudgets_facts (cw : Nat) :
    1000 ≤ (deriveBudgets cw).prompt_budget ∧
    (deriveBudgets cw).context_budget_total = (deriveBudgets cw).prompt_budget * 45 / 100 ∧
    450 ≤ (deriveBudgets cw).context_budget_total ∧
    (deriveBudgets cw).context_budget_total ≤ (deriveBudgets cw).prompt_budget ∧
    (deriveBudgets cw).issues_budget + (deriveBudgets cw).papers_budget
      = (deriveBudgets cw).context_budget_total ∧
    (deriveBudgets cw).instruction_budget
      = (deriveBudgets cw).prompt_budget - (deriveBudgets cw).context_budget_total ∧
    550 ≤ (deriveBudgets cw).instruction_budget ∧
    200 ≤ (deriveBudgets cw).user_budget ∧
    (deriveBudgets cw).user_budget + 29 ≤ (deriveBudgets cw).instruction_budget := by
  unfold deriveBudgets
  dsimp only
  omega

theorem est_mkUserFinal_le (ub : Nat) (u : Str) :
    est_tokens (mkUserFinal ub u) ≤ max ub 1 := by
  unfold mkUserFinal
  split
  · next h => exact le_trans h (le_max_left _ _)
  · have := est_trim_le u (ub : Int)
    omega

theorem est_fbHeader : est_tokens fbHeader = 29 := by decide

/-- In every path of the instruction-rewrite step, the produced instruction
    estimates to at most `instruction_budget` tokens, provided the trimmed
    user request leaves 29 tokens of room for the fallback header. -/
theorem est_mkInstruction_le (P : ProviderModel) (ib : Nat) (uf isum psum : Str)
    (h : est_tokens uf + 29 ≤ ib) :
    est_tokens (mkInstruction P ib uf isum psum) ≤ ib := by
  have hfb : est_tokens (fbHeader ++ uf) ≤ ib := by
    have := est_tokens_append fbHeader uf
    have := est_fbHeader
    omega
  have hib1 : 1 ≤ ib := by
    have := est_tokens_pos uf
    omega
  unfold mkInstruction
  split
  · exact hfb
  · split
    · exact hfb
    · next res heq =>
      dsimp only
      set oi := if pstrip res = [] then uf else pstrip res with hoi
      split
      · have := est_summarize_le P oi (ib : Int)
        omega
      · next h2 =>
        omega

/-! ## Structural helpers about `build_optimized_prompt_dual_context` -/

theorem summarize_nil (P : ProviderModel) (t : Int) :
    summarize_to_tokens_dynamic P [] t = [] := by
  simp [summarize_to_tokens_dynamic]

theorem trim_to_tokens_nil (t : Int) : trim_to_tokens [] t = [] := by
  unfold trim_to_tokens
  split <;> simp

theorem applyRebalance_snd_nil (P : ProviderModel) (pb : Nat) (instr isum : Str) :
    (applyRebalance P pb instr isum []).2 = [] := by
  unfold applyRebalance
  split <;> simp [summarize_nil]

theorem mkInstruction_of_fail (P : ProviderModel) (ib : Nat) (uf isum psum : Str)
    (hfail : ∀ s x, P.complete s x = Except.error ()) :
    mkInstruction P ib uf isum psum = fbHeader ++ uf := by
  unfold mkInstruction
  split
  · rfl
  · rw [hfail]

theorem assemble_eq_append (instr isum psum : Str) :
    assemble instr isum psum
      = instr ++ (hdrIssues ++ ((if isum = [] then noneLit else isum) ++
        (hdrPapers ++ (if psum = [] then noneLit else psum)))) := by
  simp [assemble, List.append_assoc]

/-- Whatever the provider does, the returned prompt is an assembly
    `assemble oi a b` around the instruction computed by `mkInstruction`. -/
theorem build_prompt_eq (P : ProviderModel) (u i p : Str) (cw : Nat) :
    ∃ a b, (build_optimized_prompt_dual_context P u i p cw).optimized_prompt
      = assemble (mkInstruction P (deriveBudgets cw).instruction_budget
          (mkUserFinal (deriveBudgets cw).user_budget u)
          (if i = [] then []
           else summarize_to_tokens_dynamic P i ((deriveBudgets cw).issues_budget : Int))
          (if p = [] then []
           else summarize_to_tokens_dynamic P p ((deriveBudgets cw).papers_budget : Int)))
        a b := by
  unfold build_optimized_prompt_dual_context
  dsimp only
  generalize (if i = [] then []
    else summarize_to_tokens_dynamic P i ((deriveBudgets cw).issues_budget : Int)) = isum
  generalize (if p = [] then []
    else summarize_to_tokens_dynamic P p ((deriveBudgets cw).papers_budget : Int)) = psum
  split
  · exact ⟨_, _, rfl⟩
  · exact ⟨_, _, rfl⟩

/-- With empty `papers_text` the papers slot of the assembly stays empty in
    both the rebalanced and the final-safety-pass prompt. -/
theorem build_prompt_eq_papers_nil (P : ProviderModel) (u i : Str) (cw : Nat) :
    ∃ a, (build_optimized_prompt_dual_context P u i [] cw).optimized_prompt
      = assemble (mkInstruction P (deriveBudgets cw).instruction_budget
          (mkUserFinal (deriveBudgets cw).user_budget u)
          (if i = [] then []
           else summarize_to_tokens_dynamic P i ((deriveBudgets cw).issues_budget : Int))
          [])
        a [] := by
  unfold build_optimized_prompt_dual_context
  dsimp only
  have hp : (if ([] : Str) = [] then []
      else summarize_to_tokens_dynamic P [] ((deriveBudgets cw).papers_budget : Int)) = [] := by
    simp
  rw [hp]
  generalize (if i = [] then []
    else summarize_to_tokens_dynamic P i ((deriveBudgets cw).issues_budget : Int)) = isum
  rw [applyRebalance_snd_nil]
  split
  · rw [summarize_nil]
    exact ⟨_, rfl⟩
  · exact ⟨_, rfl⟩

theorem fbHeader_append_ne_nil (l : Str) : fbHeader ++ l ≠ [] := by
  intro h
  have := congrArg List.length h
  simp [fbHeader, chars] at this

theorem append_tail_ex (x y z tail : Str) :
    ∃ pre, x ++ (y ++ (z ++ tail)) = pre ++ tail :=
  ⟨x ++ (y ++ z), by simp [List.append_assoc]⟩

/-! ## Claims C1-C6 -/

/-- C1: for every `context_window ≥ 1000`, the budgets derived by
`build_optimized_prompt_dual_context` satisfy
`issues_budget + papers_budget ≤ context_budget_total ≤ prompt_budget_total
≤ context_window`. -/
theorem budget_chain_invariant (cw : Nat) (hcw : 1000 ≤ cw) :
    (deriveBudgets cw).issues_budget + (deriveBudgets cw).papers_budget
      ≤ (deriveBudgets cw).context_budget_total ∧
    (deriveBudgets cw).context_budget_total ≤ (deriveBudgets cw).prompt_budget ∧
    (deriveBudgets cw).prompt_budget ≤ cw := by
  unfold deriveBudgets
  dsimp only
  omega

theorem budget_chain_invariant_witness :
    1000 ≤ 8000 ∧
    ((deriveBudgets 8000).issues_budget + (deriveBudgets 8000).papers_budget
      ≤ (deriveBudgets 8000).context_budget_total ∧
    (deriveBudgets 8000).context_budget_total ≤ (deriveBudgets 8000).prompt_budget ∧
    (deriveBudgets 8000).prompt_budget ≤ 8000) :=
  ⟨by norm_num, budget_chain_invariant 8000 (by norm_num)⟩

/-- C2, counterexample: at `provider_context_window = 1000` the derivation
yields `reserve_reply = 250`, `reserve_system = 800`,
`prompt_budget_total = 1000`, whose sum `2050` exceeds the context window,
so the claimed invariant fails for this provider context window. -/
theorem budget_reserve_sum_counterexample :
    ¬ ((deriveBudgets 1000).reserve_reply + (deriveBudgets 1000).reserve_system
       + (deriveBudgets 1000).prompt_budget ≤ 1000) := by
  decide

/-- C2, amended: the fields of the derived `BudgetPlan` are non-negative
integers (they live in `Nat`), and whenever the provider context window is
at least `2399` — i.e. whenever the `max(1000, ...)` floor on the prompt
budget is inactive — the invariant
`reserve_reply + reserve_system + prompt_budget_total ≤ provider_context_window`
holds, together with
`issues_budget + papers_budget ≤ context_budget_total ≤ prompt_budget_total`. -/
theorem budget_reserve_sum_amended (cw : Nat) (hcw : 2399 ≤ cw) :
    (deriveBudgets cw).reserve_reply + (deriveBudgets cw).reserve_system
      + (deriveBudgets cw).prompt_budget ≤ cw ∧
    (deriveBudgets cw).issues_budget + (deriveBudgets cw).papers_budget
      ≤ (deriveBudgets cw).context_budget_total ∧
    (deriveBudgets cw).context_budget_total ≤ (deriveBudgets cw).prompt_budget := by
  unfold deriveBudgets
  dsimp only
  omega

theorem budget_reserve_sum_amended_witness :
    2399 ≤ 16000 ∧
    ((deriveBudgets 16000).reserve_reply + (deriveBudgets 16000).reserve_system
      + (deriveBudgets 16000).prompt_budget ≤ 16000 ∧
    (deriveBudgets 16000).issues_budget + (deriveBudgets 16000).papers_budget
      ≤ (deriveBudgets 16000).context_budget_total ∧
    (deriveBudgets 16000).context_budget_total ≤ (deriveBudgets 16000).prompt_budget) :=
  ⟨by norm_num, budget_reserve_sum_amended 16000 (by norm_num)⟩

/-- C3: if every call to the CompletionProvider raises,
`build_optimized_prompt_dual_context` still returns a non-empty
`optimized_prompt` that contains the (possibly trimmed to `user_budget`)
original `user_prompt` as a substring. -/
theorem graceful_degradation (P : ProviderModel) (u i p : Str) (cw : Nat)
    (hfail : ∀ s x, P.complete s x = Except.error ()) :
    (build_optimized_prompt_dual_context P u i p cw).optimized_prompt ≠ [] ∧
    ∃ pre post, (build_optimized_prompt_dual_context P u i p cw).optimized_prompt
      = pre ++ (mkUserFinal (deriveBudgets cw).user_budget u ++ post) := by
  obtain ⟨a, b, hab⟩ := build_prompt_eq P u i p cw
  rw [hab, mkInstruction_of_fail P _ _ _ _ hfail, assemble_eq_append]
  rw [List.append_assoc]
  constructor
  · exact fbHeader_append_ne_nil _
  · exact ⟨fbHeader, _, rfl⟩

theorem graceful_degradation_witness :
    (∀ s x, ProviderModel.complete ⟨true, true, fun _ _ => Except.error ()⟩ s x
      = Except.error ()) ∧
    ((build_optimized_prompt_dual_context ⟨true, true, fun _ _ => Except.error ()⟩
        (chars "Summarize open bugs") (chars "Issue 3") (chars "paper") 8000).optimized_prompt ≠ [] ∧
    ∃ pre post, (build_optimized_prompt_dual_context ⟨true, true, fun _ _ => Except.error ()⟩
        (chars "Summarize open bugs") (chars "Issue 3") (chars "paper") 8000).optimized_prompt
      = pre ++ (mkUserFinal (deriveBudgets 8000).user_budget (chars "Summarize open bugs") ++ post)) :=
  ⟨fun _ _ => rfl,
   graceful_degradation ⟨true, true, fun _ _ => Except.error ()⟩
     (chars "Summarize open bugs") (chars "Issue 3") (chars "paper") 8000 (fun _ _ => rfl)⟩

/-- C4: `summarize_to_tokens_dynamic` returns empty input unchanged,
falls back to `trim_to_tokens` on an unusable provider or a raising call,
trims an over-budget successful completion, and in all cases for non-empty
input the returned text estimates to at most `max target_tokens 1`. -/
theorem summarize_fallback_spec (P : ProviderModel) (text : Str) (t : Int) :
    summarize_to_tokens_dynamic P [] t = [] ∧
    (¬ P.usable → summarize_to_tokens_dynamic P text t = trim_to_tokens text t) ∧
    ((∀ s x, P.complete s x = Except.error ()) →
      summarize_to_tokens_dynamic P text t = trim_to_tokens text t) ∧
    (∀ res, text ≠ [] → P.usable →
      P.complete summSystem (summPrompt t text) = Except.ok res →
      (est_tokens (pstrip res) : Int) > t →
      summarize_to_tokens_dynamic P text t = trim_to_tokens (pstrip res) t) ∧
    (text ≠ [] →
      (est_tokens (summarize_to_tokens_dynamic P text t) : Int) ≤ max t 1) := by
  refine ⟨summarize_nil P t, ?_, ?_, ?_, fun _ => est_summarize_le P text t⟩
  · intro hu
    unfold summarize_to_tokens_dynamic
    split
    · next h => rw [h, trim_to_tokens_nil]
    · rfl
  · intro hfail
    unfold summarize_to_tokens_dynamic
    split
    · next h => rw [h, trim_to_tokens_nil]
    · split
      · rfl
      · rw [hfail]
  · intro res hne hu hcall hover
    unfold summarize_to_tokens_dynamic
    rw [if_neg hne, if_neg (by simpa using hu), hcall]
    dsimp only
    rw [if_pos hover]

theorem summarize_fallback_spec_witness :
    summarize_to_tokens_dynamic ⟨true, true, fun _ _ => Except.error ()⟩ [] 2 = [] ∧
    summarize_to_tokens_dynamic ⟨true, true, fun _ _ => Except.error ()⟩
      (chars "hello world!") 2
      = trim_to_tokens (chars "hello world!") 2 ∧
    (est_tokens (summarize_to_tokens_dynamic ⟨true, true, fun _ _ => Except.error ()⟩
      (chars "hello world!") 2) : Int) ≤ max 2 1 :=
  ⟨(summarize_fallback_spec ⟨true, true, fun _ _ => Except.error ()⟩ (chars "hello world!") 2).1,
   (summarize_fallback_spec ⟨true, true, fun _ _ => Except.error ()⟩ (chars "hello world!") 2).2.2.1
     (fun _ _ => rfl),
   (summarize_fallback_spec ⟨true, true, fun _ _ => Except.error ()⟩ (chars "hello world!") 2).2.2.2.2
     (by decide)⟩

/-- C5: for every text and every integer `n ≥ 0`,
`est_tokens (trim_to_tokens text n) ≤ max n 1`. -/
theorem monotonic_shrink (text : Str) (n : Int) (_hn : 0 ≤ n) :
    (est_tokens (trim_to_tokens text n) : Int) ≤ max n 1 :=
  est_trim_le text n

theorem monotonic_shrink_witness :
    0 ≤ (1 : Int) ∧
    (est_tokens (trim_to_tokens (chars "abcdefgh") 1) : Int) ≤ max 1 1 :=
  ⟨by norm_num, monotonic_shrink (chars "abcdefgh") 1 (by norm_num)⟩

/-- C6: at `context_window = 8000` the derived budgets are exactly
`reserve_reply = 2000, reserve_system = 800, prompt_budget_total = 5200,
context_budget_total = 2340, issues_budget = 1170, papers_budget = 1170,
instruction_budget = 2860, user_budget = 1287`; and with empty
`papers_text` the assembled prompt ends with the papers-section header
followed by the literal `(none)`. -/
theorem end_to_end_example_8000 :
    deriveBudgets 8000 = ⟨2000, 800, 5200, 2340, 1170, 1170, 2860, 1287⟩ ∧
    ∀ (P : ProviderModel) (user_prompt issues_text : Str),
      ∃ pre, (build_optimized_prompt_dual_context P user_prompt issues_text [] 8000).optimized_prompt
        = pre ++ (hdrPapers ++ noneLit) := by
  refine ⟨by decide, fun P u i => ?_⟩
  obtain ⟨a, ha⟩ := build_prompt_eq_papers_nil P u i 8000
  rw [ha, assemble_eq_append]
  rw [if_pos rfl]
  exact append_tail_ex _ _ _ _

/-! ## Claim C9: floors of the two overflow passes -/

/-- The `optimized_instruction` value computed inside
    `build_optimized_prompt_dual_context` (a named copy of the binding, so
    that theorems can speak about the overflow passes of every run). -/
def buildInstr (P : ProviderModel) (u i p : Str) (cw : Nat) : Str :=
  mkInstruction P (deriveBudgets cw).instruction_budget
    (mkUserFinal (deriveBudgets cw).user_budget u)
    (if i = [] then []
     else summarize_to_tokens_dynamic P i ((deriveBudgets cw).issues_budget : Int))
    (if p = [] then []
     else summarize_to_tokens_dynamic P p ((deriveBudgets cw).papers_budget : Int))

/-- The instruction of any run fits its budget. -/
theorem est_buildInstr_le (P : ProviderModel) (u i p : Str) (cw : Nat) :
    est_tokens (buildInstr P u i p cw) ≤ (deriveBudgets cw).instruction_budget := by
  obtain ⟨hpb, hcbt_eq, hcbt450, hcbtle, hip, hibeq, hib550, hub200, hub29⟩ :=
    deriveBudgets_facts cw
  have huf := est_mkUserFinal_le (deriveBudgets cw).user_budget u
  unfold buildInstr
  exact est_mkInstruction_le _ _ _ _ _ (by omega)

/-- C9: in every overflow re-summarization performed by the allocator, the
target passed to the summarizer for each context block is at least 100
tokens: the proportional rebalancing targets carry an explicit
`max 100 _`, and in the final safety pass the remainder
`rem = prompt_budget - est_tokens(instruction)` is always at least 450, so
`max(80, rem // 2)` is exactly `rem // 2 ≥ 225` and the two targets split
`rem` evenly (they sum to `rem` and differ by at most one token). -/
theorem overflow_pass_floors (P : ProviderModel) (u i p : Str) (cw : Nat) :
    100 ≤ (rebalanceTargets (deriveBudgets cw).prompt_budget (buildInstr P u i p cw)
      (if i = [] then []
       else summarize_to_tokens_dynamic P i ((deriveBudgets cw).issues_budget : Int))
      (if p = [] then []
       else summarize_to_tokens_dynamic P p ((deriveBudgets cw).papers_budget : Int))).1 ∧
    100 ≤ (rebalanceTargets (deriveBudgets cw).prompt_budget (buildInstr P u i p cw)
      (if i = [] then []
       else summarize_to_tokens_dynamic P i ((deriveBudgets cw).issues_budget : Int))
      (if p = [] then []
       else summarize_to_tokens_dynamic P p ((deriveBudgets cw).papers_budget : Int))).2 ∧
    (finalTargets (deriveBudgets cw).prompt_budget (buildInstr P u i p cw)).1
      = (((deriveBudgets cw).prompt_budget : Int) - est_tokens (buildInstr P u i p cw)) / 2 ∧
    100 ≤ (finalTargets (deriveBudgets cw).prompt_budget (buildInstr P u i p cw)).1 ∧
    100 ≤ (finalTargets (deriveBudgets cw).prompt_budget (buildInstr P u i p cw)).2 ∧
    (finalTargets (deriveBudgets cw).prompt_budget (buildInstr P u i p cw)).1
      + (finalTargets (deriveBudgets cw).prompt_budget (buildInstr P u i p cw)).2
      = ((deriveBudgets cw).prompt_budget : Int) - est_tokens (buildInstr P u i p cw) ∧
    (finalTargets (deriveBudgets cw).prompt_budget (buildInstr P u i p cw)).1
      ≤ (finalTargets (deriveBudgets cw).prompt_budget (buildInstr P u i p cw)).2 ∧
    (finalTargets (deriveBudgets cw).prompt_budget (buildInstr P u i p cw)).2
      - (finalTargets (deriveBudgets cw).prompt_budget (buildInstr P u i p cw)).1 ≤ 1 := by
  obtain ⟨hpb, hcbt_eq, hcbt450, hcbtle, hip, hibeq, hib550, hub200, hub29⟩ :=
    deriveBudgets_facts cw
  have hinstr := est_buildInstr_le P u i p cw
  refine ⟨le_max_left _ _, le_max_left _ _, ?_, ?_, ?_, ?_, ?_, ?_⟩ <;>
    · unfold finalTargets
      dsimp only
      omega

/-! ## Python value model for the tool-result normalizer and extractors

`PyVal` models the JSON-like Python values flowing through `_jsonify_tc`,
`_rows_from_doc` and `extract_issue_list`/`extract_comment_list`, plus the
fastmcp transport objects: `carrier` is a `TextContent` (an object with a
string `.text` attribute), `toolResult` an object with a `.content`
attribute, and `obj` any other attribute-less transport object. -/

inductive PyVal where
  | str : Str → PyVal
  | int : Int → PyVal
  | bool : Bool → PyVal
  | none : PyVal
  | list : List PyVal → PyVal
  | dict : List (Str × PyVal) → PyVal
  | carrier : Str → PyVal
  | toolResult : PyVal → PyVal
  | obj : PyVal

/-- Python dict key lookup (`d.get(k)`); dict keys are unique, so the first
    match is the value. -/
def dlookup (kvs : List (Str × PyVal)) (k : Str) : Option PyVal :=
  match kvs with
  | [] => Option.none
  | (k2, v) :: rest => if k2 = k then some v else dlookup rest k

/-- `isinstance(x, dict)`. -/
def isDict : PyVal → Bool
  | .dict _ => true
  | _ => false

/-- `getattr(tc, "text", None)` restricted to string values. -/
def textOf : PyVal → Option Str
  | .carrier t => some t
  | _ => Option.none

/-- `hasattr(x, "text")` (with a string `.text`). -/
def hasTextAttr : PyVal → Bool
  | .carrier _ => true
  | _ => false

/-- `getattr(payload, "content", payload)`. -/
def contentUnwrap : PyVal → PyVal
  | .toolResult c => c
  | p => p

/-- `if isinstance(data, dict) and "content" in data: data = data["content"]`. -/
def contentKeyUnwrap : PyVal → PyVal
  | .dict kvs =>
      match dlookup kvs (chars "content") with
      | some v => v
      | Option.none => .dict kvs
  | d => d

/-- ASCII backslash. -/
def bslash : Char := Char.ofNat 92

/-- ASCII double quote. -/
def dquote : Char := Char.ofNat 34

/-- Python `str.replace(pat, rep)` (all non-overlapping occurrences, left
    to right); the patterns used by the code are never empty. -/
def replaceAll (pat rep : Str) (s : Str) : Str :=
  match s with
  | [] => []
  | c :: cs =>
      if h : pat ≠ [] ∧ pat.isPrefixOf (c :: cs) then
        rep ++ replaceAll pat rep ((c :: cs).drop pat.length)
      else
        c :: replaceAll pat rep cs
termination_by s.length
decreasing_by
  · simp only [List.length_drop]
    have : 1 ≤ pat.length := by
      cases pat with
      | nil => exact absurd rfl h.1
      | cons p ps => simp
    simp only [List.length_cons]
    omega
  · simp

/-- `re.sub(r"(?<!\\)\'", '"', s)`: replace every single quote whose
    immediately preceding character in the original string is not a
    backslash. -/
def quoteSubAux : Option Char → Str → Str
  | _, [] => []
  | prev, c :: cs =>
      (if c = squote ∧ prev ≠ some bslash then dquote else c) :: quoteSubAux (some c) cs

def quoteSub (s : Str) : Str := quoteSubAux Option.none s

/-- The "naive JSON-ization" pass:
    `.replace("None","null").replace("True","true").replace("False","false")`
    followed by the unescaped-single-quote substitution. -/
def naiveJsonize (s : Str) : Str :=
  quoteSub (replaceAll (chars "False") (chars "false")
    (replaceAll (chars "True") (chars "true")
      (replaceAll (chars "None") (chars "null") s)))

/-- Abstract model of the external parsing library calls:
    `tryJson` is `json.loads` wrapped in `try/except` (`_try_json`) and
    `extractFenced` is the regex search of `_extract_fenced_json`.  The two
    `Prop` fields record the only structural facts the verification needs:
    a JSON document that parses to a string carries surrounding quotes
    (so the value is at least two characters shorter), and a fenced block
    is a substring of its host. -/
structure ParseEnv where
  tryJson : Str → Option PyVal
  extractFenced : Str → Option Str
  tryJson_str_len : ∀ s t, tryJson s = some (PyVal.str t) → t.length + 2 ≤ s.length
  extractFenced_len : ∀ s i, extractFenced s = some i → i.length ≤ s.length

/-- `join_text_chunks` of `_jsonify_tc`: collect the `.text` of the string
    carriers, join with newlines, strip. -/
def join_text_chunks (lst : List PyVal) : Str :=
  pstrip (List.intercalate (chars "\n") (lst.filterMap textOf))

/-- The naive-JSON-ization stage of the three-stage parse cascade. -/
def naiveStage (env : ParseEnv) (raw : Str) : PyVal :=
  match env.tryJson (naiveJsonize raw) with
  | some j => j
  | Option.none => .str raw

/-- The fenced-block stage (`inner = _extract_fenced_json(raw); if inner: ...`),
    falling through to the naive stage. -/
def fencedStage (env : ParseEnv) (raw : Str) : PyVal :=
  match env.extractFenced raw with
  | some inner =>
      if inner = [] then naiveStage env raw
      else
        match env.tryJson inner with
        | some j => j
        | Option.none => naiveStage env raw
  | Option.none => naiveStage env raw

/-- The three-stage parse cascade of `_jsonify_tc`: direct JSON parse, then
    fenced block, then naive JSON-ization, else the raw text. -/
def threeStageParse (env : ParseEnv) (raw : Str) : PyVal :=
  match env.tryJson raw with
  | some j => j
  | Option.none => fencedStage env raw

/-- The body of `_jsonify_tc` after the two content unwraps. -/
def jsonifyCore (env : ParseEnv) (data : PyVal) : PyVal :=
  match data with
  | .list (x :: xs) =>
      if hasTextAttr x then
        let raw := join_text_chunks (x :: xs)
        if raw = [] then .list (x :: xs)
        else threeStageParse env raw
      else .list (x :: xs)
  | .carrier t => threeStageParse env t
  | d => d

/-- `_jsonify_tc` (`src/playground/app.py` lines 188-244). -/
def jsonify_tc (env : ParseEnv) (payload : PyVal) : PyVal :=
  jsonifyCore env (contentKeyUnwrap (contentUnwrap payload))

/-! ## `str()` rendering, used by the `{"raw": str(element)}` wrapping -/

/-- Comma-join for container `repr`s. -/
def joinComma (xs : List Str) : Str := List.intercalate (chars ", ") xs

/-- Python `repr` of a JSON-like value (string escaping inside `repr` of a
    `str` is not modelled; the claims never inspect it).  Transport objects
    render as their class tag, matching CPython's `<... object>` shape only
    loosely — again never inspected. -/
def pyRepr : PyVal → Str
  | .str s => [squote] ++ s ++ [squote]
  | .int n => chars (toString n)
  | .bool b => if b then chars "True" else chars "False"
  | .none => chars "None"
  | .list xs => chars "[" ++ joinComma (xs.attach.map (fun x => pyRepr x.1)) ++ chars "]"
  | .dict kvs => chars "\x7b" ++
      joinComma (kvs.attach.map
        (fun kv => [squote] ++ kv.1.1 ++ [squote] ++ chars ": " ++ pyRepr kv.1.2)) ++
      chars "\x7d"
  | .carrier _ => chars "<TextContent>"
  | .toolResult _ => chars "<ToolResult>"
  | .obj => chars "<object>"
termination_by v => sizeOf v
decreasing_by
  all_goals
    (first
      | (have hmem := List.sizeOf_lt_of_mem x.2
         simp only [PyVal.list.sizeOf_spec]
         omega)
      | (have h1 := List.sizeOf_lt_of_mem kv.2
         obtain ⟨q, hq⟩ := kv
         obtain ⟨a, b⟩ := q
         simp only [PyVal.dict.sizeOf_spec, Prod.mk.sizeOf_spec] at *
         omega))

/-- Python `str()`: identity on strings, `repr` otherwise. -/
def pyStr : PyVal → Str
  | .str s => s
  | v => pyRepr v

/-- `r if isinstance(r, dict) else {"raw": str(r)}`. -/
def wrapRow (r : PyVal) : PyVal :=
  if isDict r then r else .dict [(chars "raw", .str (pyStr r))]

/-! ## Length lemmas for the string-recursion termination -/

theorem pstrip_length_le (s : Str) : (pstrip s).length ≤ s.length := by
  unfold pstrip
  have h1 : (s.dropWhile Char.isWhitespace).length ≤ s.length :=
    (List.dropWhile_sublist _).length_le
  have h2 : ((s.dropWhile Char.isWhitespace).reverse.dropWhile Char.isWhitespace).length
      ≤ (s.dropWhile Char.isWhitespace).reverse.length :=
    (List.dropWhile_sublist _).length_le
  simp only [List.length_reverse] at *
  omega

theorem replaceAll_length_le (pat rep : Str) (hle : rep.length ≤ pat.length) (s : Str) :
    (replaceAll pat rep s).length ≤ s.length := by
  induction s using replaceAll.induct pat rep with
  | case1 => simp [replaceAll]
  | case2 c cs h ih =>
      rw [replaceAll, dif_pos h]
      have hpre := (List.isPrefixOf_iff_prefix.mp h.2).length_le
      simp only [List.length_append, List.length_drop, List.length_cons] at *
      omega
  | case3 c cs h ih =>
      rw [replaceAll, dif_neg h]
      simp only [List.length_cons]
      omega

theorem quoteSubAux_length (prev : Option Char) (s : Str) :
    (quoteSubAux prev s).length = s.length := by
  induction s generalizing prev with
  | nil => rfl
  | cons c cs ih => simp [quoteSubAux, ih]

theorem naiveJsonize_length_le (s : Str) : (naiveJsonize s).length ≤ s.length := by
  unfold naiveJsonize quoteSub
  rw [quoteSubAux_length]
  calc (replaceAll (chars "False") (chars "false")
          (replaceAll (chars "True") (chars "true")
            (replaceAll (chars "None") (chars "null") s))).length
      ≤ (replaceAll (chars "True") (chars "true")
          (replaceAll (chars "None") (chars "null") s)).length :=
        replaceAll_length_le _ _ (by decide) _
    _ ≤ (replaceAll (chars "None") (chars "null") s).length :=
        replaceAll_length_le _ _ (by decide) _
    _ ≤ s.length := replaceAll_length_le _ _ (by decide) _

/-! ## `_rows_from_doc` (`src/playground/app.py` lines 505-548) -/

/-- Termination measure for the string-reparse recursion: only a string
    re-enters the string branch, and any string produced by a JSON parse is
    strictly shorter than its source document. -/
def pyRank : PyVal → Nat
  | .str s => s.length + 1
  | _ => 0

theorem pyRank_lt_of_tryJson (env : ParseEnv) {a : Str} {j : PyVal} {n : Nat}
    (h : env.tryJson a = some j) (ha : a.length ≤ n) : pyRank j < n + 1 := by
  cases j
  case str t =>
    have := env.tryJson_str_len a t h
    simp only [pyRank]
    omega
  all_goals simp only [pyRank]; omega

/-- `_rows_from_doc(doc, limit_rows)`.  A list yields its (limited) rows
    with non-dict elements wrapped; a dict yields its `rows`/`data` list or
    itself; a string with non-empty stripped content runs the parse cascade
    (fenced, direct, naive) and recurses on success, else yields one
    `{"raw": ...}` row truncated to 10000 characters; anything else yields
    no rows. -/
def rows_from_doc (env : ParseEnv) (limit_rows : Nat) : PyVal → List PyVal
  | .list rs => (rs.take limit_rows).map wrapRow
  | .dict kvs =>
      match dlookup kvs (chars "rows") with
      | some (.list rs) => (rs.take limit_rows).map wrapRow
      | _ =>
          match dlookup kvs (chars "data") with
          | some (.list rs) => (rs.take limit_rows).map wrapRow
          | _ => [.dict kvs]
  | .str s0 =>
      if pstrip s0 = [] then []
      else
        match hf : env.extractFenced (pstrip s0) with
        | some inner =>
            if inner = [] then
              match hj : env.tryJson (pstrip s0) with
              | some j => rows_from_doc env limit_rows j
              | Option.none =>
                  match hn : env.tryJson (naiveJsonize (pstrip s0)) with
                  | some j => rows_from_doc env limit_rows j
                  | Option.none => [.dict [(chars "raw", .str ((pstrip s0).take 10000))]]
            else
              match hj2 : env.tryJson inner with
              | some j => rows_from_doc env limit_rows j
              | Option.none =>
                  match hj : env.tryJson (pstrip s0) with
                  | some j => rows_from_doc env limit_rows j
                  | Option.none =>
                      match hn : env.tryJson (naiveJsonize (pstrip s0)) with
                      | some j => rows_from_doc env limit_rows j
                      | Option.none => [.dict [(chars "raw", .str ((pstrip s0).take 10000))]]
        | Option.none =>
            match hj : env.tryJson (pstrip s0) with
            | some j => rows_from_doc env limit_rows j
            | Option.none =>
                match hn : env.tryJson (naiveJsonize (pstrip s0)) with
                | some j => rows_from_doc env limit_rows j
                | Option.none => [.dict [(chars "raw", .str ((pstrip s0).take 10000))]]
  | _ => []
termination_by doc => pyRank doc
decreasing_by
  all_goals
    simp only [pyRank]
    first
      | exact pyRank_lt_of_tryJson env (by assumption) (pstrip_length_le s0)
      | exact pyRank_lt_of_tryJson env (by assumption)
          (le_trans (naiveJsonize_length_le _) (pstrip_length_le s0))
      | exact pyRank_lt_of_tryJson env (by assumption)
          (le_trans (env.extractFenced_len _ _ (by assumption)) (pstrip_length_le s0))

/-! ## `extract_issue_list` / `extract_comment_list`
(`src/github-issues/main.py` lines 69-123)

The pydantic `.dict()` unwrap at the top of each function applies to model
objects outside the JSON value domain and is not modelled; the inputs here
are the plain values produced by `to_json_value`. -/

theorem dlookup_sizeOf_lt {kvs : List (Str × PyVal)} {k : Str} {v : PyVal}
    (h : dlookup kvs k = some v) : sizeOf v < 1 + sizeOf kvs := by
  induction kvs with
  | nil => simp [dlookup] at h
  | cons hd tl ih =>
      obtain ⟨k2, v2⟩ := hd
      unfold dlookup at h
      split at h
      · cases h
        simp only [List.cons.sizeOf_spec, Prod.mk.sizeOf_spec]
        omega
      · have := ih h
        simp only [List.cons.sizeOf_spec, Prod.mk.sizeOf_spec]
        omega

/-- `x.get("node", x) for x in arr if isinstance(x, dict)`: keep only the
    dict-shaped elements, pulling a `node` value when present. -/
def getNodeOrSelf (x : PyVal) : Option PyVal :=
  match x with
  | .dict kvs =>
      some (match dlookup kvs (chars "node") with
            | some v => v
            | Option.none => .dict kvs)
  | _ => Option.none

/-- Pull `e["node"]` from a GraphQL-style edge when it is a dict. -/
def edgeNode (e : PyVal) : Option PyVal :=
  match e with
  | .dict kvs =>
      match dlookup kvs (chars "node") with
      | some (.dict nkvs) => some (.dict nkvs)
      | _ => Option.none
  | _ => Option.none

/-- The `for key in (...)` container probe: first key bound to a list. -/
def firstListKey (kvs : List (Str × PyVal)) : List Str → Option (List PyVal)
  | [] => Option.none
  | k :: ks =>
      match dlookup kvs k with
      | some (.list arr) => some arr
      | _ => firstListKey kvs ks

def issueKeys : List Str := [chars "items", chars "issues", chars "results", chars "nodes"]

def commentKeys : List Str := [chars "items", chars "comments", chars "results", chars "nodes"]

/-- `extract_issue_list`: container keys, then `edges`, then (recursively)
    `data` nesting, then the single-issue `id`/`number` check. -/
def extract_issue_list : PyVal → List PyVal
  | .dict kvs =>
      match firstListKey kvs issueKeys with
      | some arr => arr.filterMap getNodeOrSelf
      | Option.none =>
          match dlookup kvs (chars "edges") with
          | some (.list edges) => edges.filterMap edgeNode
          | _ =>
              match hdata : dlookup kvs (chars "data") with
              | some (.dict dkvs) => extract_issue_list (.dict dkvs)
              | _ =>
                  if ((dlookup kvs (chars "id")).isSome
                        && (dlookup kvs (chars "number")).isSome) = true
                  then [.dict kvs] else []
  | .list xs => xs.filter isDict
  | _ => []
termination_by doc => sizeOf doc
decreasing_by
  have := dlookup_sizeOf_lt hdata
  simp only [PyVal.dict.sizeOf_spec] at *
  omega

/-- `extract_comment_list`: identical probing with the `comments` container
    key and no single-item fallback. -/
def extract_comment_list : PyVal → List PyVal
  | .dict kvs =>
      match firstListKey kvs commentKeys with
      | some arr => arr.filterMap getNodeOrSelf
      | Option.none =>
          match dlookup kvs (chars "edges") with
          | some (.list edges) => edges.filterMap edgeNode
          | _ =>
              match hdata : dlookup kvs (chars "data") with
              | some (.dict dkvs) => extract_comment_list (.dict dkvs)
              | _ => []
  | .list xs => xs.filter isDict
  | _ => []
termination_by doc => sizeOf doc
decreasing_by
  have := dlookup_sizeOf_lt hdata
  simp only [PyVal.dict.sizeOf_spec] at *
  omega

/-- Modelled from the claim words "then one level of `data` nesting
    (recursing once)": the same probing as `extract_issue_list`, except
    that the `data` unwrap is allowed at most once (the Boolean flag).
    This is the claim-side definition used to compare against the source
    behaviour, which recurses through `data` without a depth bound. -/
def extract_issue_list_once : Bool → PyVal → List PyVal
  | allowData, .dict kvs =>
      match firstListKey kvs issueKeys with
      | some arr => arr.filterMap getNodeOrSelf
      | Option.none =>
          match dlookup kvs (chars "edges") with
          | some (.list edges) => edges.filterMap edgeNode
          | _ =>
              match hdata : dlookup kvs (chars "data") with
              | some (.dict dkvs) =>
                  if allowData then extract_issue_list_once false (.dict dkvs)
                  else if ((dlookup kvs (chars "id")).isSome
                            && (dlookup kvs (chars "number")).isSome) = true
                  then [.dict kvs] else []
              | _ =>
                  if ((dlookup kvs (chars "id")).isSome
                        && (dlookup kvs (chars "number")).isSome) = true
                  then [.dict kvs] else []
  | _, .list xs => xs.filter isDict
  | _, _ => []
termination_by _ doc => sizeOf doc
decreasing_by
  have := dlookup_sizeOf_lt hdata
  simp only [PyVal.dict.sizeOf_spec] at *
  omega

/-! ## Claim C7: the normalizer -/

/-- A concrete parse environment in which every parse fails — faithful to
    `json.loads` on the inputs used by the concrete counterexamples and
    witnesses below (none of them is valid JSON or contains a fenced
    block). -/
def trivEnv : ParseEnv where
  tryJson := fun _ => Option.none
  extractFenced := fun _ => Option.none
  tryJson_str_len := fun _ _ h => Option.noConfusion h
  extractFenced_len := fun _ _ h => Option.noConfusion h

/-- C7, counterexample: a mapping input carrying a `"content"` key is not
returned unchanged — `_jsonify_tc({"content": 5})` unwraps the key and
returns `5`, while the claim says a mapping input is returned unchanged. -/
theorem normalize_content_key_counterexample :
    jsonify_tc trivEnv (PyVal.dict [(chars "content", PyVal.int 5)]) = PyVal.int 5 ∧
    PyVal.int 5 ≠ PyVal.dict [(chars "content", PyVal.int 5)] :=
  ⟨rfl, fun h => PyVal.noConfusion h⟩

/-- C7 (amended): `_jsonify_tc` is a total function (never raises).  A
mapping with a `"content"` key is first unwrapped to that value and the
rest of the normalization applies to it; a mapping without one, the empty
sequence, and a sequence not starting with a text carrier are returned
unchanged.  For a sequence starting with a text carrier the carriers'
texts are joined with newlines and stripped; if the stripped join is empty
the sequence is returned unchanged, otherwise the three-stage cascade
applies — direct JSON parse, then a parse of a non-empty fenced block,
then a parse after naive JSON-ization (`None/True/False` to
`null/true/false`, unescaped single quotes to double quotes) — returning
the first success and the stripped joined text when all three fail. -/
theorem normalize_amended (env : ParseEnv) :
    (∀ kvs, dlookup kvs (chars "content") = Option.none →
        jsonify_tc env (.dict kvs) = .dict kvs) ∧
    (∀ kvs v, dlookup kvs (chars "content") = some v →
        jsonify_tc env (.dict kvs) = jsonifyCore env v) ∧
    (jsonify_tc env (.list []) = .list []) ∧
    (∀ x xs, hasTextAttr x = false →
        jsonify_tc env (.list (x :: xs)) = .list (x :: xs)) ∧
    (∀ x xs, hasTextAttr x = true → join_text_chunks (x :: xs) = [] →
        jsonify_tc env (.list (x :: xs)) = .list (x :: xs)) ∧
    (∀ x xs, hasTextAttr x = true → join_text_chunks (x :: xs) ≠ [] →
        jsonify_tc env (.list (x :: xs))
          = threeStageParse env (join_text_chunks (x :: xs))) ∧
    (∀ raw j, env.tryJson raw = some j → threeStageParse env raw = j) ∧
    (∀ raw inner j, env.tryJson raw = Option.none →
        env.extractFenced raw = some inner → inner ≠ [] →
        env.tryJson inner = some j → threeStageParse env raw = j) ∧
    (∀ raw j, env.tryJson raw = Option.none →
        (∀ inner, env.extractFenced raw = some inner →
            inner = [] ∨ env.tryJson inner = Option.none) →
        env.tryJson (naiveJsonize raw) = some j → threeStageParse env raw = j) ∧
    (∀ raw, env.tryJson raw = Option.none →
        (∀ inner, env.extractFenced raw = some inner →
            inner = [] ∨ env.tryJson inner = Option.none) →
        env.tryJson (naiveJsonize raw) = Option.none →
        threeStageParse env raw = .str raw) := by
  have hnaive : ∀ raw j, env.tryJson (naiveJsonize raw) = some j →
      naiveStage env raw = j := by
    intro raw j h
    unfold naiveStage
    rw [h]
  have hnaive2 : ∀ raw, env.tryJson (naiveJsonize raw) = Option.none →
      naiveStage env raw = .str raw := by
    intro raw h
    unfold naiveStage
    rw [h]
  have hfenced : ∀ raw, env.tryJson raw = Option.none →
      (∀ inner, env.extractFenced raw = some inner →
          inner = [] ∨ env.tryJson inner = Option.none) →
      threeStageParse env raw = naiveStage env raw := by
    intro raw h1 h2
    unfold threeStageParse
    rw [h1]
    dsimp only
    unfold fencedStage
    cases hfe : env.extractFenced raw with
    | none => rfl
    | some inner =>
        dsimp only
        by_cases hinner : inner = []
        · rw [if_pos hinner]
        · rw [if_neg hinner]
          rcases h2 inner hfe with hi | hi
          · exact absurd hi hinner
          · rw [hi]
  refine ⟨?_, ?_, rfl, ?_, ?_, ?_, ?_, ?_, ?_, ?_⟩
  · intro kvs h
    unfold jsonify_tc contentUnwrap contentKeyUnwrap
    dsimp only
    rw [h]
    rfl
  · intro kvs v h
    unfold jsonify_tc contentUnwrap contentKeyUnwrap
    dsimp only
    rw [h]
  · intro x xs h
    unfold jsonify_tc contentUnwrap contentKeyUnwrap jsonifyCore
    dsimp only
    rw [h]
    simp
  · intro x xs h hj
    unfold jsonify_tc contentUnwrap contentKeyUnwrap jsonifyCore
    dsimp only
    rw [h, if_pos rfl, if_pos hj]
  · intro x xs h hj
    unfold jsonify_tc contentUnwrap contentKeyUnwrap jsonifyCore
    dsimp only
    rw [h, if_pos rfl, if_neg hj]
  · intro raw j h
    unfold threeStageParse
    rw [h]
  · intro raw inner j h1 h2 h3 h4
    unfold threeStageParse
    rw [h1]
    dsimp only
    unfold fencedStage
    rw [h2]
    dsimp only
    rw [if_neg h3, h4]
  · intro raw j h1 h2 h3
    rw [hfenced raw h1 h2]
    exact hnaive raw j h3
  · intro raw h1 h2 h3
    rw [hfenced raw h1 h2]
    exact hnaive2 raw h3

theorem normalize_amended_witness :
    hasTextAttr (PyVal.carrier (chars "abc")) = true ∧
    join_text_chunks [PyVal.carrier (chars "abc")] ≠ [] ∧
    jsonify_tc trivEnv (PyVal.list [PyVal.carrier (chars "abc")])
      = threeStageParse trivEnv (join_text_chunks [PyVal.carrier (chars "abc")]) :=
  ⟨rfl, by decide,
   (normalize_amended trivEnv).2.2.2.2.2.1 (PyVal.carrier (chars "abc")) [] rfl (by decide)⟩

/-! ## Claim C8: the item extractors -/

/-- Branch lemma: the first container key bound to a list wins. -/
theorem extract_issue_list_eq_container (kvs : List (Str × PyVal)) (arr : List PyVal)
    (h : firstListKey kvs issueKeys = some arr) :
    extract_issue_list (.dict kvs) = arr.filterMap getNodeOrSelf := by
  rw [extract_issue_list.eq_def]
  dsimp only
  rw [h]

/-- Branch lemma: with no container key, a GraphQL `edges` list is probed. -/
theorem extract_issue_list_eq_edges (kvs : List (Str × PyVal)) (edges : List PyVal)
    (h1 : firstListKey kvs issueKeys = Option.none)
    (h2 : dlookup kvs (chars "edges") = some (.list edges)) :
    extract_issue_list (.dict kvs) = edges.filterMap edgeNode := by
  rw [extract_issue_list.eq_def]
  dsimp only
  rw [h1, h2]

/-- Branch lemma: with no container key and no `edges`, a dict under
    `data` is recursed into (this recursion is depth-unbounded). -/
theorem extract_issue_list_eq_data (kvs dkvs : List (Str × PyVal))
    (h1 : firstListKey kvs issueKeys = Option.none)
    (h2 : dlookup kvs (chars "edges") = Option.none)
    (h3 : dlookup kvs (chars "data") = some (.dict dkvs)) :
    extract_issue_list (.dict kvs) = extract_issue_list (.dict dkvs) := by
  rw [extract_issue_list.eq_def]
  dsimp only
  rw [h1, h2, h3]

/-- Branch lemma: the single-issue wrap when `id` and `number` are present. -/
theorem extract_issue_list_eq_single (kvs : List (Str × PyVal))
    (h1 : firstListKey kvs issueKeys = Option.none)
    (h2 : dlookup kvs (chars "edges") = Option.none)
    (h3 : dlookup kvs (chars "data") = Option.none)
    (h4 : ((dlookup kvs (chars "id")).isSome && (dlookup kvs (chars "number")).isSome) = true) :
    extract_issue_list (.dict kvs) = [.dict kvs] := by
  rw [extract_issue_list.eq_def]
  dsimp only
  rw [h1, h2, h3]
  dsimp only
  rw [if_pos h4]

/-- Branch lemma: an unrecognized mapping yields the empty list. -/
theorem extract_issue_list_eq_empty (kvs : List (Str × PyVal))
    (h1 : firstListKey kvs issueKeys = Option.none)
    (h2 : dlookup kvs (chars "edges") = Option.none)
    (h3 : dlookup kvs (chars "data") = Option.none)
    (h4 : ((dlookup kvs (chars "id")).isSome && (dlookup kvs (chars "number")).isSome) = false) :
    extract_issue_list (.dict kvs) = [] := by
  rw [extract_issue_list.eq_def]
  dsimp only
  rw [h1, h2, h3]
  dsimp only
  rw [if_neg ?_]
  rw [h4]
  exact Bool.false_ne_true

/-- A minimal single-issue mapping (has both `id` and `number`). -/
def issueItem : PyVal := .dict [(chars "id", .int 1), (chars "number", .int 2)]

/-- A document with two levels of `data` nesting around an `items` list. -/
def nestedDataDoc : PyVal :=
  .dict [(chars "data",
    .dict [(chars "data",
      .dict [(chars "items", .list [issueItem])])])]

/-- C8, counterexample: the claim says the extractor tries one level of
`data` nesting, recursing once; the code recurses through `data` without a
depth bound, so on a document carrying `data.data.items` it extracts the
item while the claimed one-level probing (`extract_issue_list_once`, the
claim-side definition) returns the empty list. -/
theorem extract_data_depth_counterexample :
    extract_issue_list nestedDataDoc = [issueItem] ∧
    extract_issue_list_once true nestedDataDoc = [] ∧
    ([issueItem] : List PyVal) ≠ [] := by
  refine ⟨?_, ?_, by simp⟩
  · have e1 := extract_issue_list_eq_data
      [(chars "data", .dict [(chars "data", .dict [(chars "items", .list [issueItem])])])]
      [(chars "data", .dict [(chars "items", .list [issueItem])])] rfl rfl rfl
    have e2 := extract_issue_list_eq_data
      [(chars "data", .dict [(chars "items", .list [issueItem])])]
      [(chars "items", .list [issueItem])] rfl rfl rfl
    have e3 := extract_issue_list_eq_container
      [(chars "items", .list [issueItem])] [issueItem] rfl
    show extract_issue_list (.dict
      [(chars "data", .dict [(chars "data", .dict [(chars "items", .list [issueItem])])])])
      = [issueItem]
    rw [e1, e2, e3]
    rfl
  · rw [extract_issue_list_once.eq_def]
    dsimp only [nestedDataDoc]
    rw [show firstListKey
        [(chars "data", .dict [(chars "data", .dict [(chars "items", .list [issueItem])])])]
        issueKeys = Option.none from rfl]
    rw [show dlookup
        [(chars "data", .dict [(chars "data", .dict [(chars "items", .list [issueItem])])])]
        (chars "edges") = Option.none from rfl]
    rw [show dlookup
        [(chars "data", .dict [(chars "data", .dict [(chars "items", .list [issueItem])])])]
        (chars "data")
        = some (.dict [(chars "data", .dict [(chars "items", .list [issueItem])])]) from rfl]
    dsimp only
    rw [if_pos rfl]
    rw [extract_issue_list_once.eq_def]
    dsimp only
    rw [show firstListKey [(chars "data", .dict [(chars "items", .list [issueItem])])]
        issueKeys = Option.none from rfl]
    rw [show dlookup [(chars "data", .dict [(chars "items", .list [issueItem])])]
        (chars "edges") = Option.none from rfl]
    rw [show dlookup [(chars "data", .dict [(chars "items", .list [issueItem])])]
        (chars "data") = some (.dict [(chars "items", .list [issueItem])]) from rfl]
    dsimp only
    rw [if_neg (by simp)]
    rw [if_neg ?_]
    rw [show (dlookup [(chars "data", .dict [(chars "items", .list [issueItem])])]
        (chars "id")).isSome = false from rfl]
    simp

/-- C8 (amended): the extractors are total (never raise) and probe a
mapping in priority order — the container keys (`items`,
`issues`/`comments` depending on kind, `results`, `nodes`; the first key
bound to a list wins, keeping the dict-shaped elements and pulling their
`node` values), then a GraphQL-style `edges` list pulling each dict
`edge.node`, then `data` nesting followed recursively (at any depth, not
just once); for issues only, a remaining mapping with both `id` and
`number` is wrapped in a singleton list; otherwise the result is the empty
list; and a sequence input keeps only its mapping-shaped elements. -/
theorem extract_probe_amended :
    (∀ xs, extract_issue_list (.list xs) = xs.filter isDict) ∧
    (∀ kvs arr, firstListKey kvs issueKeys = some arr →
        extract_issue_list (.dict kvs) = arr.filterMap getNodeOrSelf) ∧
    (∀ kvs edges, firstListKey kvs issueKeys = Option.none →
        dlookup kvs (chars "edges") = some (.list edges) →
        extract_issue_list (.dict kvs) = edges.filterMap edgeNode) ∧
    (∀ kvs dkvs, firstListKey kvs issueKeys = Option.none →
        dlookup kvs (chars "edges") = Option.none →
        dlookup kvs (chars "data") = some (.dict dkvs) →
        extract_issue_list (.dict kvs) = extract_issue_list (.dict dkvs)) ∧
    (∀ kvs, firstListKey kvs issueKeys = Option.none →
        dlookup kvs (chars "edges") = Option.none →
        dlookup kvs (chars "data") = Option.none →
        ((dlookup kvs (chars "id")).isSome && (dlookup kvs (chars "number")).isSome) = true →
        extract_issue_list (.dict kvs) = [.dict kvs]) ∧
    (∀ kvs, firstListKey kvs issueKeys = Option.none →
        dlookup kvs (chars "edges") = Option.none →
        dlookup kvs (chars "data") = Option.none →
        ((dlookup kvs (chars "id")).isSome && (dlookup kvs (chars "number")).isSome) = false →
        extract_issue_list (.dict kvs) = []) ∧
    (∀ n : Int, extract_issue_list (.int n) = []) ∧
    (∀ xs, extract_comment_list (.list xs) = xs.filter isDict) ∧
    (∀ kvs arr, firstListKey kvs commentKeys = some arr →
        extract_comment_list (.dict kvs) = arr.filterMap getNodeOrSelf) ∧
    (∀ kvs, firstListKey kvs commentKeys = Option.none →
        dlookup kvs (chars "edges") = Option.none →
        dlookup kvs (chars "data") = Option.none →
        extract_comment_list (.dict kvs) = []) := by
  refine ⟨?_, extract_issue_list_eq_container, extract_issue_list_eq_edges,
    extract_issue_list_eq_data, extract_issue_list_eq_single,
    extract_issue_list_eq_empty, ?_, ?_, ?_, ?_⟩
  · intro xs
    rw [extract_issue_list.eq_def]
  · intro n
    rw [extract_issue_list.eq_def]
  · intro xs
    rw [extract_comment_list.eq_def]
  · intro kvs arr h
    rw [extract_comment_list.eq_def]
    dsimp only
    rw [h]
  · intro kvs h1 h2 h3
    rw [extract_comment_list.eq_def]
    dsimp only
    rw [h1, h2, h3]

theorem extract_probe_amended_witness :
    firstListKey [(chars "items", PyVal.list [issueItem])] issueKeys
      = some [issueItem] ∧
    extract_issue_list (PyVal.dict [(chars "items", PyVal.list [issueItem])])
      = ([issueItem] : List PyVal).filterMap getNodeOrSelf :=
  ⟨rfl, extract_probe_amended.2.1 [(chars "items", PyVal.list [issueItem])] [issueItem] rfl⟩

/-! ## Claim C10: the SQL row extraction -/

theorem isDict_wrapRow (r : PyVal) : isDict (wrapRow r) = true := by
  unfold wrapRow
  split
  · assumption
  · rfl

/-- Branch lemma: the list shape. -/
theorem rows_from_doc_list (env : ParseEnv) (limit : Nat) (rs : List PyVal) :
    rows_from_doc env limit (.list rs) = (rs.take limit).map wrapRow := by
  rw [rows_from_doc.eq_def]

/-- Branch lemma: a string that strips to empty yields no rows. -/
theorem rows_from_doc_str_blank (env : ParseEnv) (limit : Nat) (s : Str)
    (h : pstrip s = []) : rows_from_doc env limit (.str s) = [] := by
  rw [rows_from_doc.eq_def]
  dsimp only
  rw [if_pos h]

/-- Case analysis of the dict branch: the result is a wrapped row list or
    the singleton of the mapping itself. -/
theorem rows_dict_cases (env : ParseEnv) (limit : Nat) (kvs : List (Str × PyVal)) :
    (∃ rs : List PyVal, rows_from_doc env limit (.dict kvs) = (rs.take limit).map wrapRow) ∨
    rows_from_doc env limit (.dict kvs) = [.dict kvs] := by
  rw [rows_from_doc.eq_def]
  dsimp only
  split
  · next rs heq => exact .inl ⟨rs, rfl⟩
  · split
    · next rs heq => exact .inl ⟨rs, rfl⟩
    · exact .inr rfl

/-- Case analysis of the non-blank string branch: either some parse stage
    succeeds and the extraction recurses on a strictly smaller value, or
    the truncated raw row is returned. -/
theorem rows_str_step (env : ParseEnv) (limit : Nat) (s0 : Str) (hne : pstrip s0 ≠ []) :
    (∃ j, pyRank j < pyRank (.str s0) ∧
        rows_from_doc env limit (.str s0) = rows_from_doc env limit j) ∨
    rows_from_doc env limit (.str s0)
      = [.dict [(chars "raw", .str ((pstrip s0).take 10000))]] := by
  have hrank : pyRank (.str s0) = s0.length + 1 := rfl
  have hstrip := pstrip_length_le s0
  have hnaive := naiveJsonize_length_le (pstrip s0)
  rw [rows_from_doc.eq_def]
  dsimp only
  rw [if_neg hne]
  split
  · next inner heqf =>
      have hinner := env.extractFenced_len _ _ heqf
      by_cases hi : inner = []
      · rw [if_pos hi]
        split
        · next j heq =>
            refine .inl ⟨j, ?_, rfl⟩
            rw [hrank]
            exact pyRank_lt_of_tryJson env heq hstrip
        · split
          · next j heq =>
              refine .inl ⟨j, ?_, rfl⟩
              rw [hrank]
              exact pyRank_lt_of_tryJson env heq (le_trans hnaive hstrip)
          · exact .inr rfl
      · rw [if_neg hi]
        split
        · next j heq =>
            refine .inl ⟨j, ?_, rfl⟩
            rw [hrank]
            exact pyRank_lt_of_tryJson env heq (le_trans hinner hstrip)
        · split
          · next j heq =>
              refine .inl ⟨j, ?_, rfl⟩
              rw [hrank]
              exact pyRank_lt_of_tryJson env heq hstrip
          · split
            · next j heq =>
                refine .inl ⟨j, ?_, rfl⟩
                rw [hrank]
                exact pyRank_lt_of_tryJson env heq (le_trans hnaive hstrip)
            · exact .inr rfl
  · split
    · next j heq =>
        refine .inl ⟨j, ?_, rfl⟩
        rw [hrank]
        exact pyRank_lt_of_tryJson env heq hstrip
    · split
      · next j heq =>
          refine .inl ⟨j, ?_, rfl⟩
          rw [hrank]
          exact pyRank_lt_of_tryJson env heq (le_trans hnaive hstrip)
      · exact .inr rfl

/-- Every row returned by `_rows_from_doc` is a mapping (strong induction
    on the string-reparse rank). -/
theorem rows_all_dict_aux (env : ParseEnv) (limit : Nat) :
    ∀ (n : Nat) (doc : PyVal), pyRank doc ≤ n →
      ∀ r ∈ rows_from_doc env limit doc, isDict r = true := by
  intro n
  induction n using Nat.strong_induction_on with
  | _ n ih =>
    intro doc hdoc r hr
    match doc with
    | .list rs =>
        rw [rows_from_doc_list] at hr
        obtain ⟨a, -, rfl⟩ := List.mem_map.mp hr
        exact isDict_wrapRow a
    | .dict kvs =>
        rcases rows_dict_cases env limit kvs with ⟨rs, he⟩ | he
        · rw [he] at hr
          obtain ⟨a, -, rfl⟩ := List.mem_map.mp hr
          exact isDict_wrapRow a
        · rw [he, List.mem_singleton] at hr
          subst hr
          rfl
    | .str s0 =>
        by_cases hb : pstrip s0 = []
        · rw [rows_from_doc_str_blank env limit s0 hb] at hr
          exact absurd hr (List.not_mem_nil r)
        · rcases rows_str_step env limit s0 hb with ⟨j, hlt, he⟩ | he
          · rw [he] at hr
            exact ih (pyRank j) (lt_of_lt_of_le hlt hdoc) j le_rfl r hr
          · rw [he, List.mem_singleton] at hr
            subst hr
            rfl
    | .int m => rw [rows_from_doc.eq_def] at hr; exact absurd hr (List.not_mem_nil r)
    | .bool b => rw [rows_from_doc.eq_def] at hr; exact absurd hr (List.not_mem_nil r)
    | .none => rw [rows_from_doc.eq_def] at hr; exact absurd hr (List.not_mem_nil r)
    | .carrier t => rw [rows_from_doc.eq_def] at hr; exact absurd hr (List.not_mem_nil r)
    | .toolResult v => rw [rows_from_doc.eq_def] at hr; exact absurd hr (List.not_mem_nil r)
    | .obj => rw [rows_from_doc.eq_def] at hr; exact absurd hr (List.not_mem_nil r)

/-- Every row returned by `_rows_from_doc` is a mapping. -/
theorem rows_all_dict (env : ParseEnv) (limit : Nat) (doc : PyVal) :
    ∀ r ∈ rows_from_doc env limit doc, isDict r = true :=
  rows_all_dict_aux env limit (pyRank doc) doc le_rfl

/-- Branch lemma: a string whose stripped form is non-empty and fails
    every parse stage yields exactly the truncated raw row. -/
theorem rows_from_doc_str_fail (env : ParseEnv) (limit : Nat) (s : Str)
    (hne : pstrip s ≠ [])
    (h1 : env.tryJson (pstrip s) = Option.none)
    (h2 : env.tryJson (naiveJsonize (pstrip s)) = Option.none)
    (h3 : ∀ inner, env.extractFenced (pstrip s) = some inner →
        inner = [] ∨ env.tryJson inner = Option.none) :
    rows_from_doc env limit (.str s)
      = [.dict [(chars "raw", .str ((pstrip s).take 10000))]] := by
  rw [rows_from_doc.eq_def]
  dsimp only
  rw [if_neg hne]
  split
  · next inner heq =>
    by_cases hi : inner = []
    · rw [if_pos hi, h1]
      dsimp only
      rw [h2]
    · rw [if_neg hi]
      rcases h3 inner heq with hcon | hji
      · exact absurd hcon hi
      · rw [hji]
        dsimp only
        rw [h1]
        dsimp only
        rw [h2]
  · rw [h1]
    dsimp only
    rw [h2]

/-- C10, counterexample: `" "` is a non-empty string payload that fails
all parse stages (it is whitespace only, so the code never even attempts
them), yet the extraction yields no row at all rather than exactly one
`{"raw": ...}` row. -/
theorem rows_whitespace_counterexample :
    chars " " ≠ [] ∧
    rows_from_doc trivEnv 8 (.str (chars " ")) = [] ∧
    ¬ ∃ r, rows_from_doc trivEnv 8 (.str (chars " ")) = [r] := by
  have h : rows_from_doc trivEnv 8 (.str (chars " ")) = [] :=
    rows_from_doc_str_blank trivEnv 8 (chars " ") (by decide)
  refine ⟨by decide, h, ?_⟩
  rw [h]
  rintro ⟨r, hr⟩
  exact List.noConfusion hr

/-- C10 (amended): every element of the list returned by the SQL row
extraction is a mapping; the non-mapping elements of a list input (the
first `limit_rows` of them) are wrapped as `{"raw": str(element)}`; a
string payload whose whitespace-stripped form is non-empty and which
fails all parse stages yields exactly one `{"raw": ...}` row carrying the
stripped payload truncated to its first 10,000 characters; a string that
strips to empty, and any other unrecognized input, yield the empty
list. -/
theorem rows_shape_amended (env : ParseEnv) (limit : Nat) :
    (∀ doc r, r ∈ rows_from_doc env limit doc → isDict r = true) ∧
    (∀ rs, rows_from_doc env limit (.list rs) = (rs.take limit).map wrapRow) ∧
    (∀ s, pstrip s = [] → rows_from_doc env limit (.str s) = []) ∧
    (∀ s, pstrip s ≠ [] →
        env.tryJson (pstrip s) = Option.none →
        env.tryJson (naiveJsonize (pstrip s)) = Option.none →
        (∀ inner, env.extractFenced (pstrip s) = some inner →
            inner = [] ∨ env.tryJson inner = Option.none) →
        rows_from_doc env limit (.str s)
          = [.dict [(chars "raw", .str ((pstrip s).take 10000))]]) ∧
    (rows_from_doc env limit .obj = [] ∧
     rows_from_doc env limit .none = [] ∧
     (∀ b, rows_from_doc env limit (.bool b) = []) ∧
     (∀ n : Int, rows_from_doc env limit (.int n) = []) ∧
     (∀ t, rows_from_doc env limit (.carrier t) = [])) := by
  refine ⟨fun doc => rows_all_dict env limit doc, rows_from_doc_list env limit,
    rows_from_doc_str_blank env limit, rows_from_doc_str_fail env limit,
    ?_, ?_, ?_, ?_, ?_⟩
  · rw [rows_from_doc.eq_def]
  · rw [rows_from_doc.eq_def]
  · intro b
    rw [rows_from_doc.eq_def]
  · intro n
    rw [rows_from_doc.eq_def]
  · intro t
    rw [rows_from_doc.eq_def]

theorem rows_shape_amended_witness :
    rows_from_doc trivEnv 8 (.list [PyVal.str (chars "q")])
      = [PyVal.dict [(chars "raw", PyVal.str (chars "q"))]] ∧
    rows_from_doc trivEnv 8 (.str (chars "x"))
      = [PyVal.dict [(chars "raw", PyVal.str (chars "x"))]] := by
  constructor
  · rw [(rows_shape_amended trivEnv 8).2.1 [PyVal.str (chars "q")]]
    rfl
  · rw [(rows_shape_amended trivEnv 8).2.2.2.1 (chars "x") (by decide) rfl rfl
      (fun inner h => Option.noConfusion h)]
    rfl

end LLMPlayground
